import Mathlib

/-
Verification of podcatch (src/podcatch.py) against its specification.

The development shallowly embeds the program. The filesystem is an
association list from path to file content (first entry wins, as a map).
Network behaviour is a parameter: a function from the optional Range
header value to an HTTP answer. Python standard-library helpers that the
program calls (urlparse, os.path.basename, os.path.splitext,
email.utils.parsedate_tz and friends) are either reimplemented following
their documented behaviour or taken as abstract function parameters.
Uncaught Python exceptions are modelled as error values that carry the
filesystem state at the moment they are raised.
-/

namespace Podcatch

instance {ε α : Type} [DecidableEq ε] [DecidableEq α] : DecidableEq (Except ε α) := fun x y =>
  match x, y with
  | .ok a, .ok b => if h : a = b then .isTrue (by rw [h]) else .isFalse (by simp [h])
  | .error a, .error b => if h : a = b then .isTrue (by rw [h]) else .isFalse (by simp [h])
  | .ok _, .error _ => .isFalse (by simp)
  | .error _, .ok _ => .isFalse (by simp)

/-! ## Filesystem model -/

/-- A filesystem: association list of (path, content). Lookup takes the
first matching entry, so consing is update. -/
def FS := List (String × String)

instance : DecidableEq FS := inferInstanceAs (DecidableEq (List (String × String)))

/-- Lookup by path, first entry wins. -/
def FS.find : FS → String → Option String
  | [], _ => none
  | (p, c) :: rest, q => if q = p then some c else FS.find rest q

/-- Write (create or overwrite) a file. -/
def FS.set (fs : FS) (p c : String) : FS := (p, c) :: fs

/-- Delete every entry for a path (used for the source side of os.rename). -/
def FS.erase : FS → String → FS
  | [], _ => []
  | (p, c) :: rest, q => if p = q then FS.erase rest q else (p, c) :: FS.erase rest q

/-- Path existence, as os.path.exists on files. -/
def FS.mem (fs : FS) (p : String) : Bool := (fs.find p).isSome

theorem FS.find_set_self (fs : FS) (p c : String) : (fs.set p c).find p = some c := by
  simp [FS.set, FS.find]

theorem FS.find_set_ne (fs : FS) (p c q : String) (h : q ≠ p) :
    (fs.set p c).find q = fs.find q := by
  simp [FS.set, FS.find, h]

theorem FS.find_erase_self (fs : FS) (p : String) : (fs.erase p).find p = none := by
  induction fs with
  | nil => rfl
  | cons hd tl ih =>
    obtain ⟨q, c⟩ := hd
    by_cases h : q = p
    · simpa [FS.erase, h] using ih
    · simpa [FS.erase, FS.find, h, Ne.symm h] using ih

theorem FS.find_erase_ne (fs : FS) (p q : String) (h : q ≠ p) :
    (fs.erase p).find q = fs.find q := by
  induction fs with
  | nil => rfl
  | cons hd tl ih =>
    obtain ⟨r, c⟩ := hd
    by_cases hr : r = p
    · subst hr
      simp [FS.erase, FS.find, h, ih]
    · by_cases hq : q = r <;> simp [FS.erase, hr, FS.find, hq, ih]

/-- A string is never equal to itself with a nonempty suffix appended. -/
theorem ne_append_of_ne_empty (s t : String) (h : t ≠ "") : s ≠ s ++ t := by
  intro he
  apply h
  have hlen : s.length = s.length + t.length := by
    conv_lhs => rw [he]
    exact String.length_append s t
  have h0 : t.length = 0 := by omega
  cases t with
  | mk data =>
    cases data with
    | nil => rfl
    | cons c cs => simp [String.length] at h0

/-! ## Path and URL helpers (modelling posixpath and urllib.parse) -/

/-- os.path.basename: the part after the last slash. -/
def basename (p : String) : String :=
  ⟨(p.data.reverse.takeWhile (fun c => c ≠ '/')).reverse⟩

/-- The extension part of os.path.splitext restricted to a basename:
the last dot and what follows, unless every character before that dot is
itself a dot (then no extension). -/
def extOfBase (b : List Char) : String :=
  let afterDot := b.reverse.takeWhile (fun c => c ≠ '.')
  if afterDot.length = b.length then ""
  else
    let stem := b.take (b.length - afterDot.length - 1)
    if stem.any (fun c => c ≠ '.') then ⟨'.' :: afterDot.reverse⟩ else ""

/-- os.path.splitext(p)[1]. The split point of splitext always lies after
the last path separator, so it is determined by the basename. -/
def pathExt (p : String) : String := extOfBase (basename p).data

/-- Characters allowed in a URL scheme (urllib.parse.scheme_chars). -/
def schemeChars : List Char :=
  "abcdefghijklmnopqrstuvwxyzABCDEFGHIJKLMNOPQRSTUVWXYZ0123456789+-.".data

/-- Strip the scheme, as urlsplit: the prefix before the first colon is
removed when it is nonempty, starts with a letter and consists of scheme
characters. -/
def dropScheme (l : List Char) : List Char :=
  match l.findIdx? (fun c => c = ':') with
  | none => l
  | some i =>
    if 0 < i ∧ (l.headD ' ').isAlpha ∧ (l.take i).all (fun c => schemeChars.contains c)
    then l.drop (i + 1) else l

/-- Strip the network location, as urlsplit: when the remainder starts
with two slashes, everything up to the next slash, question mark or hash
is the netloc and is removed. -/
def dropNetloc (l : List Char) : List Char :=
  match l with
  | '/' :: '/' :: rest =>
    rest.drop ((rest.takeWhile (fun c => c ≠ '/' ∧ c ≠ '?' ∧ c ≠ '#')).length)
  | _ => l

/-- urllib.parse.urlparse(u).path: strip fragment, scheme, netloc and
query; what remains is the path. -/
def urlPath (u : String) : String :=
  ⟨(dropNetloc (dropScheme (u.data.takeWhile (fun c => c ≠ '#')))).takeWhile
    (fun c => c ≠ '?')⟩

/-- The characters the program replaces in titles. -/
def invalidchars : List Char := ['<', '>', ':', '"', '/', '\\', '|', '?', '*']

/-- Replace each invalid character of a title by an underscore. -/
def sanitize (t : String) : String :=
  ⟨t.data.map (fun c => if invalidchars.contains c then '_' else c)⟩

/-- Python str.strip(): drop whitespace from both ends. -/
def pyStrip (s : String) : String :=
  ⟨((s.data.dropWhile Char.isWhitespace).reverse.dropWhile Char.isWhitespace).reverse⟩

/-- Destination basename for an item: the URL path basename normally, or
sanitized title plus the URL path extension when the collision flag is
set. -/
def destBasename (rename : Bool) (title : String) (itemurl : String) : String :=
  if rename then sanitize title ++ pathExt (urlPath itemurl)
  else basename (urlPath itemurl)

/-! ## HTTP and the resumable transfer engine (download) -/

/-- One read from the response body: a data chunk, or a transport
failure raised by the read. -/
inductive Chunk
  | data (s : String)
  | err
deriving DecidableEq

/-- A successful urlopen result: status code, the Content-Length header
if present, the body as a sequence of reads, and the Last-Modified
header if present (header lookup is already case-normalized, as the
program builds a lower-cased header dictionary). -/
structure HttpOk where
  code : Nat
  contentLength : Option Nat
  chunks : List Chunk
  lastModified : Option String
deriving DecidableEq

/-- What urlopen does for one request: succeed, raise HTTPError with a
status code, or raise URLError. -/
inductive HttpAnswer
  | ok (r : HttpOk)
  | httpError (code : Nat)
  | urlError
deriving DecidableEq

/-- Python exceptions the program does not catch anywhere. -/
inductive PyErr
  | keyError
  | attributeError
  | typeError
  | fsError
  | unboundLocal
deriving DecidableEq

/-- How a download call can fail: HTTPError raised by urlopen, URLError
raised by urlopen, a transport failure while reading the body (raised
as an exception that is neither HTTPError nor URLError), or an uncaught
Python exception. -/
inductive DlErr
  | http (code : Nat)
  | url
  | read
  | py (e : PyErr)
deriving DecidableEq

/-- The body-reading loop: write each chunk to the stage file; a
transport failure aborts with the content staged so far. -/
def stream : List Chunk → String → Except String String
  | [], acc => .ok acc
  | .data s :: rest, acc => stream rest (acc ++ s)
  | .err :: _, acc => .error acc

/-- The concatenation of an error-free body, none when a read fails. -/
def chunksData : List Chunk → Option String
  | [] => some ""
  | .data s :: rest => (chunksData rest).map (fun b => s ++ b)
  | .err :: _ => none

/-- The Range header the request carries: bytes=L- when the stage file
exists with length L, absent otherwise. -/
def requestRange (fs : FS) (dest : String) : Option String :=
  match fs.find (dest ++ ".temp") with
  | some c => some ("bytes=" ++ toString c.length ++ "-")
  | none => none

/-- The rest of download after urlopen returned. 206 opens the stage
file for append, any other success truncates it; a missing
Content-Length header raises TypeError (int(None)) after the open; the
body is streamed into the stage file; on completion the stage file is
renamed onto dest, and only then is the Last-Modified header parsed (a
header that parsedate_tz rejects raises TypeError in mktime_tz, after
the publish). pdtz models email.utils parsing composed with mktime_tz;
the actual setting of the timestamp is outside the modelled state. -/
def downloadCore (pdtz : String → Option Int) (fs : FS) (dest : String)
    (ans : HttpAnswer) : Except (DlErr × FS) FS :=
  let tmpfile := dest ++ ".temp"
  match ans with
  | .httpError code =>
    if code = 416 then
      match fs.find tmpfile with
      | some c => .ok (((fs.erase tmpfile).set dest c))
      | none => .error (.py .fsError, fs)
    else .error (.http code, fs)
  | .urlError => .error (.url, fs)
  | .ok r =>
    let start := if r.code = 206 then (fs.find tmpfile).getD "" else ""
    let fsOpened := fs.set tmpfile start
    match r.contentLength with
    | none => .error (.py .typeError, fsOpened)
    | some _ =>
      match stream r.chunks start with
      | .error staged => .error (.read, fsOpened.set tmpfile staged)
      | .ok full =>
        let fsDone := fsOpened.set tmpfile full
        let fsRenamed := (fsDone.erase tmpfile).set dest full
        match r.lastModified with
        | none => .ok fsRenamed
        | some lm =>
          match pdtz lm with
          | some _ => .ok fsRenamed
          | none => .error (.py .typeError, fsRenamed)

/-- download(url, dest): the server behaviour for the url is the
function serv from the optional Range header value to the answer. -/
def download (pdtz : String → Option Int) (serv : Option String → HttpAnswer)
    (fs : FS) (dest : String) : Except (DlErr × FS) FS :=
  downloadCore pdtz fs dest (serv (requestRange fs dest))

/-! ## date_to_local -/

/-- date_to_local, with the standard-library helpers as parameters:
parsedate_tz returns none exactly when the string is not a parseable
RFC 2822 date (then a warning is printed and the epoch is used);
mktime_tz and localtime are used through their documented total
interfaces. -/
def date_to_local {α β : Type} (parsedate_tz : String → Option α)
    (mktime_tz : α → Int) (localtime : Int → β) (date : String) : β :=
  match parsedate_tz date with
  | some p => localtime (mktime_tz p)
  | none => localtime 0

/-! ## Feed data model -/

/-- An enclosure element: its attributes. url is none when the element
carries no url attribute at all. -/
structure Enclosure where
  url : Option String
  typ : Option String
  length : Option String
deriving DecidableEq

/-- A channel item. title is the text of the title element when the
element is present with text; it is none when the element is absent or
its text is empty, the two cases in which the program raises
AttributeError at the access item.find(title).text.strip().
pubDate is the pubDate element (outer option) with its text (inner
option). description likewise: none means no description element, some
none a description element whose text is None. -/
structure Item where
  title : Option String
  pubDate : Option (Option String)
  description : Option (Option String)
  enclosure : Option Enclosure
deriving DecidableEq

/-- A channel: the title element with its text (only presence decides
whether the program survives the access channel.find(title).text),
the lastBuildDate element with its text, the image/url element with its
text, and the item list. -/
structure Channel where
  title : Option (Option String)
  lastBuildDate : Option (Option String)
  imageUrl : Option (Option String)
  items : List Item
deriving DecidableEq

/-- A top-level child of the rss element. -/
inductive RssChild
  | channel (c : Channel)
  | other (tag : String)
deriving DecidableEq

/-- The parsed feed document: the version attribute of the rss element
if present, and its top-level children in order. -/
structure Rss where
  version : Option String
  children : List RssChild
deriving DecidableEq

/-- The planned side effects the run performs, in order: directory
creation, invoking download (recorded also when the transfer then
fails), and writing a sidecar file. -/
inductive Action
  | mkdir (path : String)
  | dl (url : String) (dest : String)
  | sidecar (path : String)
deriving DecidableEq

/-- Exceptions escaping catch uncaught: a Python error, a URLError at a
call site without a URLError handler, or a transport failure while
reading a body (neither HTTPError nor URLError, so never caught). -/
inductive Crash
  | py (e : PyErr)
  | urlErr
  | readErr
deriving DecidableEq

/-! ## The per-feed pass (catch) -/

/-- Left-to-right evaluation of a fallible map, first failure wins, as
a Python list comprehension evaluates. -/
def mapExcept {α β ε : Type} (f : α → Except ε β) : List α → Except ε (List β)
  | [] => .ok []
  | a :: rest =>
    match f a with
    | .error e => .error e
    | .ok b =>
      match mapExcept f rest with
      | .error e => .error e
      | .ok bs => .ok (b :: bs)

/-- The name one enclosure contributes to the collision pre-pass:
the basename of its url attribute, KeyError when the attribute is
missing. -/
def encUrlName (e : Enclosure) : Except PyErr String :=
  match e.url with
  | some u => .ok (basename (urlPath u))
  | none => .error .keyError

/-- The collision pre-pass list: for every item whose enclosure element
exists, the basename of the url attribute of the enclosure (KeyError
when that attribute is missing), keeping only nonempty names. -/
def encBasenames (items : List Item) : Except PyErr (List String) :=
  match mapExcept encUrlName (items.filterMap Item.enclosure) with
  | .error e => .error e
  | .ok names => .ok (names.filter (fun n => n ≠ ""))

/-- The name of one enclosure when its url attribute is present. -/
def encName (e : Enclosure) : String :=
  match e.url with
  | some u => basename (urlPath u)
  | none => ""

/-- The pre-pass list under the assumption that every present enclosure
has a url attribute. -/
def encPure (items : List Item) : List String :=
  ((items.filterMap Item.enclosure).map encName).filter (fun n => n ≠ "")

/-- The feed-wide collision flag: true when the pre-pass names contain
a duplicate (len(encurls) differs from len(set(encurls))). -/
def collisionFlag (items : List Item) : Except PyErr Bool :=
  match encBasenames items with
  | .error e => .error e
  | .ok names => .ok (names.length != names.dedup.length)

/-- The sidecar writer for one item: nothing if the sidecar exists;
otherwise title, a blank line, and the description with a trailing
newline when a description element with text exists; a description
element whose text is None raises AttributeError at the encode call
(the aborted, still buffered write is treated as not durable). -/
def writeSidecar (fs : FS) (outfn : String) (title : String)
    (descr : Option (Option String)) : Except PyErr (FS × List Action) :=
  if (fs.find (outfn ++ ".txt")).isSome then .ok (fs, [])
  else
    match descr with
    | none => .ok (fs.set (outfn ++ ".txt") (title ++ "\n\n"), [.sidecar (outfn ++ ".txt")])
    | some none => .error .attributeError
    | some (some txt) =>
      .ok (fs.set (outfn ++ ".txt") (title ++ "\n\n" ++ txt ++ "\n"),
        [.sidecar (outfn ++ ".txt")])

/-- One iteration of the item loop. Items without an enclosure element
or without a url attribute are skipped; a missing title raises
AttributeError; pub is assigned from pubDate and read by the episode
line when not quiet (UnboundLocalError when still unassigned); an empty
url is skipped; otherwise the destination name is computed, the
enclosure downloaded unless present (HTTPError and URLError are caught
and skip the rest of the item), and the sidecar written. serv gives the
server behaviour per url. pub only matters through being assigned, so
it is tracked as Option Unit. -/
def processItem (pdtz : String → Option Int) (serv : String → Option String → HttpAnswer)
    (feedfolder : String) (rename : Bool) (quiet : Bool) (fs : FS) (pub : Option Unit)
    (item : Item) : Except (Crash × FS × List Action) (FS × List Action × Option Unit) :=
  match item.enclosure with
  | none => .ok (fs, [], pub)
  | some enc =>
    match enc.url with
    | none => .ok (fs, [], pub)
    | some itemurl =>
      match item.title with
      | none => .error (.py .attributeError, fs, [])
      | some rawTitle =>
        let title := pyStrip rawTitle
        let pub := if item.pubDate.isSome then some () else pub
        if pub.isNone ∧ ¬quiet then .error (.py .unboundLocal, fs, [])
        else if itemurl = "" then .ok (fs, [], pub)
        else
          let outfn := feedfolder ++ "/" ++ destBasename rename title itemurl
          let sidecarStep : FS → List Action → Except (Crash × FS × List Action)
              (FS × List Action × Option Unit) := fun fs1 acts =>
            match writeSidecar fs1 outfn title item.description with
            | .ok (fs2, a) => .ok (fs2, acts ++ a, pub)
            | .error e => .error (.py e, fs1, acts)
          if (fs.find outfn).isSome then sidecarStep fs []
          else
            match download pdtz (serv itemurl) fs outfn with
            | .ok fs1 => sidecarStep fs1 [.dl itemurl outfn]
            | .error (.http _, fs1) => .ok (fs1, [.dl itemurl outfn], pub)
            | .error (.url, fs1) => .ok (fs1, [.dl itemurl outfn], pub)
            | .error (.read, fs1) => .error (.readErr, fs1, [.dl itemurl outfn])
            | .error (.py e, fs1) => .error (.py e, fs1, [.dl itemurl outfn])

/-- The item loop, threading the filesystem, the action trace and pub. -/
def itemsFold (pdtz : String → Option Int) (serv : String → Option String → HttpAnswer)
    (feedfolder : String) (rename : Bool) (quiet : Bool) :
    List Item → FS → List Action → Option Unit → Except (Crash × FS × List Action) (FS × List Action)
  | [], fs, acts, _ => .ok (fs, acts)
  | it :: rest, fs, acts, pub =>
    match processItem pdtz serv feedfolder rename quiet fs pub it with
    | .ok (fs1, a, pub1) => itemsFold pdtz serv feedfolder rename quiet rest fs1 (acts ++ a) pub1
    | .error (c, fs1, a) => .error (c, fs1, acts ++ a)

/-- The channel image step: nothing without an image/url element; an
element without text raises TypeError inside urlparse; otherwise the
image is fetched to folder plus the url extension unless that file
exists; only HTTPError is caught here, URLError is not. -/
def imageStep (pdtz : String → Option Int) (serv : String → Option String → HttpAnswer)
    (feedfolder : String) (img : Option (Option String)) (fs : FS) :
    Except (Crash × FS × List Action) (FS × List Action) :=
  match img with
  | none => .ok (fs, [])
  | some none => .error (.py .typeError, fs, [])
  | some (some iu) =>
    let imgfile := feedfolder ++ "/folder" ++ pathExt (urlPath iu)
    if (fs.find imgfile).isSome then .ok (fs, [])
    else
      match download pdtz (serv iu) fs imgfile with
      | .ok fs1 => .ok (fs1, [.dl iu imgfile])
      | .error (.http _, fs1) => .ok (fs1, [.dl iu imgfile])
      | .error (.url, fs1) => .error (.urlErr, fs1, [.dl iu imgfile])
      | .error (.read, fs1) => .error (.readErr, fs1, [.dl iu imgfile])
      | .error (.py e, fs1) => .error (.py e, fs1, [.dl iu imgfile])

/-- The validation of the top-level structure: exactly one child and its
tag is channel. -/
def singleChannel : List RssChild → Option Channel
  | [RssChild.channel c] => some c
  | _ => none

/-- The state a feed pass produces: files, directories, action trace. -/
structure RunState where
  fs : FS
  dirs : List String
  acts : List Action
deriving DecidableEq

/-- The per-feed pass from the parsed document on: version must be
exactly 2.0 and the document must hold exactly one channel, else the
pass returns with nothing done; then the channel title is printed
(AttributeError when the title element is missing), the feed directory
created when absent, the channel image handled, the collision pre-pass
run, and the items processed in order. -/
def catchRun (pdtz : String → Option Int) (serv : String → Option String → HttpAnswer)
    (outfolder feedname : String) (quiet : Bool) (rss : Rss) (dirs0 : List String)
    (fs0 : FS) : Except (Crash × RunState) RunState :=
  if rss.version ≠ some "2.0" then .ok ⟨fs0, dirs0, []⟩
  else
    match singleChannel rss.children with
    | none => .ok ⟨fs0, dirs0, []⟩
    | some ch =>
      match ch.title with
      | none => .error (.py .attributeError, ⟨fs0, dirs0, []⟩)
      | some _ =>
        let feedfolder := outfolder ++ "/" ++ feedname
        let mk := ¬(dirs0.contains feedfolder ∨ (fs0.find feedfolder).isSome)
        let dirs1 := if mk then feedfolder :: dirs0 else dirs0
        let acts1 : List Action := if mk then [.mkdir feedfolder] else []
        match imageStep pdtz serv feedfolder ch.imageUrl fs0 with
        | .error (c, fs1, a) => .error (c, ⟨fs1, dirs1, acts1 ++ a⟩)
        | .ok (fs1, actsImg) =>
          match collisionFlag ch.items with
          | .error e => .error (.py e, ⟨fs1, dirs1, acts1 ++ actsImg⟩)
          | .ok rename =>
            match itemsFold pdtz serv feedfolder rename quiet ch.items fs1 [] none with
            | .ok (fs2, actsItems) => .ok ⟨fs2, dirs1, acts1 ++ actsImg ++ actsItems⟩
            | .error (c, fs2, actsItems) => .error (c, ⟨fs2, dirs1, acts1 ++ actsImg ++ actsItems⟩)

/-! ## Helper lemmas about the transfer engine -/

theorem string_append_empty (s : String) : s ++ "" = s := by
  cases s with
  | mk data => show String.mk (data ++ []) = String.mk data
               simp

theorem string_empty_append (s : String) : "" ++ s = s := by
  cases s with
  | mk data => rfl

theorem string_append_assoc (a b c : String) : a ++ b ++ c = a ++ (b ++ c) := by
  cases a with
  | mk da =>
    cases b with
    | mk db =>
      cases c with
      | mk dc => show String.mk (da ++ db ++ dc) = String.mk (da ++ (db ++ dc))
                 simp

/-- A body with no read failure streams to its full concatenation. -/
theorem stream_ok (chunks : List Chunk) (b : String) (h : chunksData chunks = some b) :
    ∀ acc, stream chunks acc = .ok (acc ++ b) := by
  induction chunks generalizing b with
  | nil =>
    intro acc
    simp [chunksData] at h
    rw [stream, ← h, string_append_empty]
  | cons c rest ih =>
    cases c with
    | data s =>
      intro acc
      simp [chunksData] at h
      obtain ⟨b1, hb1, hb⟩ := h
      rw [stream, ih b1 hb1, ← hb, string_append_assoc]
    | err => simp [chunksData] at h

/-- Every successful download ends in the rename that publishes dest. -/
theorem download_ok_find (pdtz : String → Option Int) (serv : Option String → HttpAnswer)
    (fs : FS) (dest : String) (fs1 : FS)
    (h : download pdtz serv fs dest = .ok fs1) : (fs1.find dest).isSome := by
  unfold download downloadCore at h
  dsimp only at h
  repeat' split at h
  all_goals simp_all [FS.find_set_self]
  all_goals (subst h; simp [FS.find_set_self])

/-- The Last-Modified header, when present, must be parseable, else the
program raises after the publish. -/
def lastModOk (pdtz : String → Option Int) : Option String → Prop
  | none => True
  | some lm => (pdtz lm).isSome = true

/-- The whole success branch of the transfer engine in one equation. -/
theorem downloadCore_ok_branch (pdtz : String → Option Int) (fs : FS) (dest : String)
    (r : HttpOk) (b start : String)
    (hdata : chunksData r.chunks = some b) (hcl : r.contentLength.isSome)
    (hlm : lastModOk pdtz r.lastModified)
    (hstart : start = if r.code = 206 then (fs.find (dest ++ ".temp")).getD "" else "") :
    downloadCore pdtz fs dest (.ok r)
      = .ok ((((fs.set (dest ++ ".temp") start).set (dest ++ ".temp") (start ++ b)).erase
          (dest ++ ".temp")).set dest (start ++ b)) := by
  obtain ⟨cl, hcl'⟩ := Option.isSome_iff_exists.mp hcl
  subst hstart
  cases hl : r.lastModified with
  | none => simp only [downloadCore, hcl', hl, stream_ok r.chunks b hdata]
  | some lm =>
    rw [hl] at hlm
    obtain ⟨t, ht⟩ := Option.isSome_iff_exists.mp hlm
    simp only [downloadCore, hcl', hl, ht, stream_ok r.chunks b hdata]

/-! ## Claim theorems -/

/-- C10: date_to_local is total over the embedding: for every parser,
conversion and clock and every input string it returns the local-time
rendering of some instant, and when parsedate_tz rejects the string it
returns the local time of the Unix epoch instead of failing. -/
theorem claim_C10 {α β : Type} (parsedate_tz : String → Option α) (mktime_tz : α → Int)
    (localtime : Int → β) (date : String) :
    date_to_local parsedate_tz mktime_tz localtime date
      = localtime (match parsedate_tz date with | some p => mktime_tz p | none => 0)
    ∧ (parsedate_tz date = none →
        date_to_local parsedate_tz mktime_tz localtime date = localtime 0) := by
  constructor
  · unfold date_to_local
    cases parsedate_tz date <;> rfl
  · intro h
    simp [date_to_local, h]

/-- Witness for C10: an unparseable date yields the epoch. -/
theorem claim_C10_witness :
    date_to_local (fun _ => (none : Option Unit)) (fun _ => 0) (fun n => n) "not a date" = 0 :=
  (claim_C10 (fun _ => (none : Option Unit)) (fun _ => 0) (fun n => n) "not a date").2 rfl

/-- C5: a feed document that does not declare version exactly 2.0, or
does not hold exactly one top-level channel element, produces no
directory, no download and no sidecar: the pass returns at once with
the filesystem and directories untouched and an empty action trace. -/
theorem claim_C5 (pdtz : String → Option Int) (serv : String → Option String → HttpAnswer)
    (outfolder feedname : String) (quiet : Bool) (rss : Rss) (dirs0 : List String) (fs0 : FS)
    (h : rss.version ≠ some "2.0" ∨ singleChannel rss.children = none) :
    catchRun pdtz serv outfolder feedname quiet rss dirs0 fs0 = .ok ⟨fs0, dirs0, []⟩ := by
  rcases h with h | h
  · simp [catchRun, h]
  · by_cases hv : rss.version = some "2.0"
    · simp [catchRun, hv, h]
    · simp [catchRun, hv]

/-- Witness for C5: a version 1.0 document yields no actions. -/
theorem claim_C5_witness :
    catchRun (fun _ => none) (fun _ _ => .urlError) "out" "feed" true
      ⟨some "1.0", [.channel ⟨some (some "T"), none, none, []⟩]⟩ [] []
      = .ok ⟨[], [], []⟩ :=
  claim_C5 (fun _ => none) (fun _ _ => .urlError) "out" "feed" true
    ⟨some "1.0", [.channel ⟨some (some "T"), none, none, []⟩]⟩ [] [] (Or.inl (by decide))

/-- C3 (code bug): a valid feed whose single item carries an enclosure
element without a url attribute makes the feed-wide collision pre-pass
raise KeyError, aborting the whole feed pass, although the per-item
loop of the same program would have skipped exactly this item with a
diagnostic, as the spec requires. -/
theorem claim_C3_bug :
    catchRun (fun _ => none) (fun _ _ => .urlError) "out" "feed" true
      ⟨some "2.0", [.channel ⟨some (some "T"), none, none,
        [⟨some "It", none, none, some ⟨none, none, none⟩⟩]⟩]⟩ [] []
      = .error (.py .keyError, ⟨[], ["out/feed"], [.mkdir "out/feed"]⟩)
    ∧ processItem (fun _ => none) (fun _ _ => .urlError) "out/feed" false true [] none
        ⟨some "It", none, none, some ⟨none, none, none⟩⟩
      = .ok ([], [], none) := by
  constructor
  · decide
  · decide

/-- C8 (code bug): a valid feed whose single item has an enclosure url
but no title element makes the feed pass raise an uncaught
AttributeError at the title access: the failure is not caught and
logged, it aborts the whole run, contradicting the claimed best-effort
policy. -/
theorem claim_C8_bug :
    catchRun (fun _ => none) (fun _ _ => .urlError) "out" "feed" true
      ⟨some "2.0", [.channel ⟨some (some "T"), none, none,
        [⟨none, none, none, some ⟨some "http://h/x.mp3", none, none⟩⟩]⟩]⟩ [] []
      = .error (.py .attributeError, ⟨[], ["out/feed"], [.mkdir "out/feed"]⟩) := by
  decide

/-- C9 counterexample: for an item whose description element is present
but holds no text, the sidecar writer raises AttributeError at the
encode call instead of creating the described sidecar, so the claim as
stated fails at this input. -/
theorem claim_C9_cex :
    writeSidecar [] "out/feed/ep.mp3" "T" (some none) = .error .attributeError := by
  decide

/-- C9 (amended): an existing sidecar is left unchanged by the run; when
it does not exist and there is no description element, it is created
holding the title and a blank line; when it does not exist and a
description element with text is present, it is created holding the
title, a blank line and the description with a trailing newline. -/
theorem claim_C9 (fs : FS) (outfn title : String) (descr : Option (Option String)) :
    ((fs.find (outfn ++ ".txt")).isSome → writeSidecar fs outfn title descr = .ok (fs, []))
    ∧ ((fs.find (outfn ++ ".txt")).isSome = false → descr = none →
        writeSidecar fs outfn title descr
          = .ok (fs.set (outfn ++ ".txt") (title ++ "\n\n"), [.sidecar (outfn ++ ".txt")]))
    ∧ (∀ txt, (fs.find (outfn ++ ".txt")).isSome = false → descr = some (some txt) →
        writeSidecar fs outfn title descr
          = .ok (fs.set (outfn ++ ".txt") (title ++ "\n\n" ++ txt ++ "\n"),
              [.sidecar (outfn ++ ".txt")])) := by
  refine ⟨fun h => ?_, fun h hd => ?_, fun txt h hd => ?_⟩
  · simp [writeSidecar, h]
  · simp [writeSidecar, h, hd]
  · simp [writeSidecar, h, hd]

/-- C1: when download fails with an HTTP error status (the 416 case is
handled as a success, not a failure), a connect failure, or a transport
failure during the body read, the destination entry is exactly what it
was before the call and the stage file, when it existed, still exists:
it is never deleted on failure, and dest is only ever written by the
rename performed on completion or on the 416 promotion. -/
theorem claim_C1 (pdtz : String → Option Int) (serv : Option String → HttpAnswer)
    (fs : FS) (dest : String) (e : DlErr) (fs1 : FS)
    (herr : download pdtz serv fs dest = .error (e, fs1))
    (hkind : (∃ c, e = .http c) ∨ e = .url ∨ e = .read) :
    fs1.find dest = fs.find dest
    ∧ ((fs.find (dest ++ ".temp")).isSome → (fs1.find (dest ++ ".temp")).isSome) := by
  have hne : dest ≠ dest ++ ".temp" := ne_append_of_ne_empty dest ".temp" (by decide)
  unfold download downloadCore at herr
  dsimp only at herr
  repeat' split at herr
  all_goals simp_all [FS.find_set_self, FS.find_set_ne]
  all_goals (obtain ⟨he, hfs⟩ := herr; subst he; subst hfs)
  all_goals
    first
      | exact absurd hkind (by simp)
      | (constructor
         · rw [FS.find_set_ne _ _ _ _ hne, FS.find_set_ne _ _ _ _ hne]
         · intro hmem
           simp [FS.find_set_self])

/-- Witness for C1: a 404 on a resume attempt leaves everything as it
was and keeps the stage file. -/
theorem claim_C1_witness :
    download (fun _ => none) (fun _ => .httpError 404) [("d.temp", "ab")] "d"
      = .error (.http 404, [("d.temp", "ab")])
    ∧ (FS.find [("d.temp", "ab")] "d" = FS.find [("d.temp", "ab")] "d"
        ∧ ((FS.find [("d.temp", "ab")] ("d" ++ ".temp")).isSome →
            (FS.find [("d.temp", "ab")] ("d" ++ ".temp")).isSome)) :=
  ⟨by decide,
    claim_C1 (fun _ => none) (fun _ => .httpError 404) [("d.temp", "ab")] "d"
      (.http 404) [("d.temp", "ab")] (by decide) (Or.inl ⟨404, rfl⟩)⟩

/-- C2: the request carries Range bytes=L- exactly when the stage file
exists with length L and no Range header otherwise; a 206 answer is
appended to the staged bytes so the body lands at offset L, and any
other success status truncates the stage file so the staged bytes are
discarded; in both cases the completed content is published at dest. -/
theorem claim_C2 (pdtz : String → Option Int) (serv : Option String → HttpAnswer)
    (fs : FS) (dest : String) :
    (∀ s, fs.find (dest ++ ".temp") = some s →
        requestRange fs dest = some ("bytes=" ++ toString s.length ++ "-"))
    ∧ (fs.find (dest ++ ".temp") = none → requestRange fs dest = none)
    ∧ (∀ s r b, fs.find (dest ++ ".temp") = some s →
        serv (requestRange fs dest) = .ok r → r.code = 206 →
        chunksData r.chunks = some b → r.contentLength.isSome →
        lastModOk pdtz r.lastModified →
        ∃ fs1, download pdtz serv fs dest = .ok fs1
          ∧ fs1.find dest = some (s ++ b) ∧ fs1.find (dest ++ ".temp") = none)
    ∧ (∀ r b, serv (requestRange fs dest) = .ok r → r.code ≠ 206 →
        chunksData r.chunks = some b → r.contentLength.isSome →
        lastModOk pdtz r.lastModified →
        ∃ fs1, download pdtz serv fs dest = .ok fs1
          ∧ fs1.find dest = some b ∧ fs1.find (dest ++ ".temp") = none) := by
  have hne : (dest ++ ".temp") ≠ dest :=
    (ne_append_of_ne_empty dest ".temp" (by decide)).symm
  refine ⟨fun s htmp => ?_, fun htmp => ?_, fun s r b htmp hserv hcode hdata hcl hlm => ?_,
    fun r b hserv hcode hdata hcl hlm => ?_⟩
  · simp [requestRange, htmp]
  · simp [requestRange, htmp]
  · have hok := downloadCore_ok_branch pdtz fs dest r b s hdata hcl hlm
      (by rw [if_pos hcode, htmp]; rfl)
    refine ⟨(((fs.set (dest ++ ".temp") s).set (dest ++ ".temp") (s ++ b)).erase
      (dest ++ ".temp")).set dest (s ++ b), ?_, ?_, ?_⟩
    · unfold download
      rw [hserv, hok]
    · exact FS.find_set_self _ _ _
    · rw [FS.find_set_ne _ _ _ _ hne, FS.find_erase_self]
  · have hok := downloadCore_ok_branch pdtz fs dest r b "" hdata hcl hlm
      (by rw [if_neg hcode])
    refine ⟨(((fs.set (dest ++ ".temp") "").set (dest ++ ".temp") ("" ++ b)).erase
      (dest ++ ".temp")).set dest ("" ++ b), ?_, ?_, ?_⟩
    · unfold download
      rw [hserv, hok]
    · rw [FS.find_set_self, string_empty_append]
    · rw [FS.find_set_ne _ _ _ _ hne, FS.find_erase_self]

/-- Witness for C2: resuming two staged bytes with a 206 answer appends
the remaining body. -/
theorem claim_C2_witness :
    ∃ fs1, download (fun _ => none)
        (fun rng => if rng = some "bytes=2-" then .ok ⟨206, some 2, [.data "cd"], none⟩
          else .urlError)
        [("d.temp", "ab")] "d" = .ok fs1
      ∧ fs1.find "d" = some ("ab" ++ "cd") ∧ fs1.find ("d" ++ ".temp") = none :=
  (claim_C2 (fun _ => none)
      (fun rng => if rng = some "bytes=2-" then .ok ⟨206, some 2, [.data "cd"], none⟩
        else .urlError)
      [("d.temp", "ab")] "d").2.2.1 "ab" ⟨206, some 2, [.data "cd"], none⟩ "cd"
    (by decide) (by decide) rfl (by decide) (by decide) trivial

/-- C4: when the stage file exists and the server answers the range
request with 416, the staged content is promoted unchanged to dest, the
stage entry disappears through the rename, no body is requested, and
the call succeeds. -/
theorem claim_C4 (pdtz : String → Option Int) (serv : Option String → HttpAnswer)
    (fs : FS) (dest s : String)
    (htmp : fs.find (dest ++ ".temp") = some s)
    (h416 : serv (requestRange fs dest) = .httpError 416) :
    download pdtz serv fs dest = .ok ((fs.erase (dest ++ ".temp")).set dest s)
    ∧ ((fs.erase (dest ++ ".temp")).set dest s).find dest = some s
    ∧ ((fs.erase (dest ++ ".temp")).set dest s).find (dest ++ ".temp") = none := by
  have hne : (dest ++ ".temp") ≠ dest :=
    (ne_append_of_ne_empty dest ".temp" (by decide)).symm
  refine ⟨?_, FS.find_set_self _ _ _, ?_⟩
  · unfold download
    rw [h416]
    simp [downloadCore, htmp]
  · rw [FS.find_set_ne _ _ _ _ hne, FS.find_erase_self]

/-- Witness for C4: a fully staged file is promoted on 416. -/
theorem claim_C4_witness :
    download (fun _ => none) (fun _ => .httpError 416) [("d.temp", "full")] "d"
      = .ok ((FS.erase [("d.temp", "full")] ("d" ++ ".temp")).set "d" "full")
    ∧ ((FS.erase [("d.temp", "full")] ("d" ++ ".temp")).set "d" "full").find "d" = some "full"
    ∧ ((FS.erase [("d.temp", "full")] ("d" ++ ".temp")).set "d" "full").find ("d" ++ ".temp")
        = none :=
  claim_C4 (fun _ => none) (fun _ => .httpError 416) [("d.temp", "full")] "d" "full"
    (by decide) (by decide)

/-- Witness for C9: a fresh sidecar with a description. -/
theorem claim_C9_witness :
    writeSidecar [] "out/feed/ep.mp3" "T" (some (some "desc"))
      = .ok (FS.set [] ("out/feed/ep.mp3" ++ ".txt") ("T" ++ "\n\n" ++ "desc" ++ "\n"),
          [.sidecar ("out/feed/ep.mp3" ++ ".txt")]) :=
  (claim_C9 [] "out/feed/ep.mp3" "T" (some (some "desc"))).2.2 "desc" (by decide) rfl

/-- When the description element is not an empty element, writing the
sidecar succeeds, leaves the media file entry alone, and afterwards the
sidecar exists. -/
theorem writeSidecar_ok (fs1 : FS) (outfn title : String) (descr : Option (Option String))
    (hdescr : descr ≠ some none) :
    ∃ fs2 a, writeSidecar fs1 outfn title descr = .ok (fs2, a)
      ∧ fs2.find outfn = fs1.find outfn
      ∧ (fs2.find (outfn ++ ".txt")).isSome = true := by
  by_cases h : (fs1.find (outfn ++ ".txt")).isSome = true
  · exact ⟨fs1, [], by simp [writeSidecar, h], rfl, h⟩
  · rcases descr with _ | od
    · refine ⟨fs1.set (outfn ++ ".txt") (title ++ "\n\n"), [.sidecar (outfn ++ ".txt")],
        ?_, ?_, ?_⟩
      · simp [writeSidecar, h]
      · exact FS.find_set_ne _ _ _ _ (ne_append_of_ne_empty outfn ".txt" (by decide))
      · simp [FS.find_set_self]
    · rcases od with _ | txt
      · exact absurd rfl hdescr
      · refine ⟨fs1.set (outfn ++ ".txt") (title ++ "\n\n" ++ txt ++ "\n"),
          [.sidecar (outfn ++ ".txt")], ?_, ?_, ?_⟩
        · simp [writeSidecar, h]
        · exact FS.find_set_ne _ _ _ _ (ne_append_of_ne_empty outfn ".txt" (by decide))
        · simp [FS.find_set_self]

/-- C7: for an item with an enclosure url whose destination is absent
and whose transfer succeeds, the first pass downloads the enclosure
(the transfer appears in the action trace), after it the destination
exists, and a second pass over the resulting state is a no-op: no
transfer, no new action, no change to the filesystem — because an item
whose computed destination already exists is skipped. -/
theorem claim_C7 (pdtz : String → Option Int) (serv : String → Option String → HttpAnswer)
    (feedfolder : String) (rename quiet : Bool) (fs : FS) (pub : Option Unit)
    (t : String) (pd : Option String) (descr : Option (Option String))
    (u : String) (ty ln : Option String) (fs1 : FS)
    (hu : u ≠ "")
    (hdescr : descr ≠ some none)
    (hnot : fs.find (feedfolder ++ "/" ++ destBasename rename (pyStrip t) u) = none)
    (hdl : download pdtz (serv u) fs
      (feedfolder ++ "/" ++ destBasename rename (pyStrip t) u) = .ok fs1) :
    ∃ fs2 a,
      processItem pdtz serv feedfolder rename quiet fs pub
          ⟨some t, some pd, descr, some ⟨some u, ty, ln⟩⟩
        = .ok (fs2, .dl u (feedfolder ++ "/" ++ destBasename rename (pyStrip t) u) :: a,
            some ())
      ∧ (fs2.find (feedfolder ++ "/" ++ destBasename rename (pyStrip t) u)).isSome = true
      ∧ processItem pdtz serv feedfolder rename quiet fs2 (some ())
          ⟨some t, some pd, descr, some ⟨some u, ty, ln⟩⟩
        = .ok (fs2, [], some ()) := by
  have hdest := download_ok_find pdtz (serv u) fs
    (feedfolder ++ "/" ++ destBasename rename (pyStrip t) u) fs1 hdl
  obtain ⟨fs2, a, hws, hfind, htxt⟩ := writeSidecar_ok fs1
    (feedfolder ++ "/" ++ destBasename rename (pyStrip t) u) (pyStrip t) descr hdescr
  have hpres : (fs2.find (feedfolder ++ "/" ++ destBasename rename (pyStrip t) u)).isSome
      = true := by
    rw [hfind]; exact hdest
  refine ⟨fs2, a, ?_, hpres, ?_⟩
  · simp only [processItem]
    dsimp only
    simp [hu, hnot, hdl, hws]
  · simp only [processItem]
    dsimp only
    simp [hu, hpres, writeSidecar, htxt]

/-- Witness for C7: a concrete first and second pass over one item. -/
theorem claim_C7_witness :
    ∃ fs2 a,
      processItem (fun _ => none) (fun _ _ => .ok ⟨200, some 4, [.data "abcd"], none⟩)
          "out/feed" false true [] none
          ⟨some "Ep", some (some "Mon, 1 Jan 2001 00:00:00 GMT"), none,
            some ⟨some "http://h/x.mp3", none, none⟩⟩
        = .ok (fs2, .dl "http://h/x.mp3"
            ("out/feed" ++ "/" ++ destBasename false (pyStrip "Ep") "http://h/x.mp3") :: a,
            some ())
      ∧ (fs2.find ("out/feed" ++ "/" ++ destBasename false (pyStrip "Ep") "http://h/x.mp3")).isSome
          = true
      ∧ processItem (fun _ => none) (fun _ _ => .ok ⟨200, some 4, [.data "abcd"], none⟩)
          "out/feed" false true fs2 (some ())
          ⟨some "Ep", some (some "Mon, 1 Jan 2001 00:00:00 GMT"), none,
            some ⟨some "http://h/x.mp3", none, none⟩⟩
        = .ok (fs2, [], some ()) :=
  claim_C7 (fun _ => none) (fun _ _ => .ok ⟨200, some 4, [.data "abcd"], none⟩)
    "out/feed" false true [] none "Ep" (some "Mon, 1 Jan 2001 00:00:00 GMT") none
    "http://h/x.mp3" none none
    [(("out/feed" ++ "/" ++ destBasename false (pyStrip "Ep") "http://h/x.mp3"), "abcd")]
    (by decide) (by decide) (by decide) (by decide)

/-! ## Helper lemmas for the collision claim -/

theorem str_append_right_cancel (a b e : String) (h : a ++ e = b ++ e) : a = b := by
  cases a with
  | mk da =>
    cases b with
    | mk db =>
      cases e with
      | mk de =>
        have hd : da ++ de = db ++ de := congrArg String.data h
        have hab : da = db := List.append_cancel_right hd
        rw [hab]

/-- The pre-pass succeeds and equals its pure version when every present
enclosure carries a url attribute. -/
theorem mapExcept_ok (l : List Enclosure) (h : ∀ e ∈ l, e.url.isSome = true) :
    mapExcept encUrlName l = .ok (l.map encName) := by
  induction l with
  | nil => rfl
  | cons e rest ih =>
    have he := h e (List.mem_cons_self _ _)
    obtain ⟨u, hu⟩ := Option.isSome_iff_exists.mp he
    have hr := ih (fun x hx => h x (List.mem_cons_of_mem _ hx))
    simp [mapExcept, encUrlName, encName, hu, hr]

theorem encBasenames_eq_pure (items : List Item)
    (h : ∀ it ∈ items, it.enclosure.all (fun e => e.url.isSome) = true) :
    encBasenames items = .ok (encPure items) := by
  have hm : mapExcept encUrlName (items.filterMap Item.enclosure)
      = .ok ((items.filterMap Item.enclosure).map encName) := by
    apply mapExcept_ok
    intro e he
    obtain ⟨it, hit, hite⟩ := List.mem_filterMap.mp he
    have hall := h it hit
    rw [hite] at hall
    simpa [Option.all] using hall
  simp [encBasenames, hm, encPure]

theorem encPure_append (xs ys : List Item) : encPure (xs ++ ys) = encPure xs ++ encPure ys := by
  simp [encPure, List.filterMap_append, List.map_append, List.filter_append]

theorem encPure_cons_some (it : Item) (ys : List Item) (e : Enclosure)
    (h : it.enclosure = some e) (hne : encName e ≠ "") :
    encPure (it :: ys) = encName e :: encPure ys := by
  simp [encPure, List.filterMap_cons, h, List.filter_cons, hne]

/-- A name occurring at least twice makes the flag expression true. -/
theorem dup_count_flag (names : List String) (b : String) (h : 2 ≤ names.count b) :
    (names.length != names.dedup.length) = true := by
  have hnd : ¬ names.Nodup := by
    rw [List.nodup_iff_count_le_one]
    push_neg
    exact ⟨b, by omega⟩
  have hne2 : names.dedup.length ≠ names.length := by
    intro hl
    have hds : names.dedup = names := (List.dedup_sublist names).eq_of_length hl
    rw [← hds] at hnd
    exact hnd (List.nodup_dedup names)
  simp only [bne_iff_ne, ne_eq]
  omega

/-- C6 counterexample: two items with equal titles and colliding
enclosure basenames: the collision flag is true, yet the two computed
destination filenames are equal, not different as the claim states. -/
theorem claim_C6_cex :
    basename (urlPath "http://a.example/x.mp3") = basename (urlPath "http://b.example/x.mp3")
    ∧ basename (urlPath "http://a.example/x.mp3") ≠ ""
    ∧ collisionFlag
        [⟨some "Ep", none, none, some ⟨some "http://a.example/x.mp3", none, none⟩⟩,
          ⟨some "Ep", none, none, some ⟨some "http://b.example/x.mp3", none, none⟩⟩]
        = .ok true
    ∧ destBasename true (pyStrip "Ep") "http://a.example/x.mp3"
        = destBasename true (pyStrip "Ep") "http://b.example/x.mp3" := by
  refine ⟨by decide, by decide, by decide, by decide⟩

/-- C6 (amended): in a channel holding two items whose enclosure urls
share a nonempty path basename (and in which every present enclosure
has a url attribute, so the pre-pass runs through), the collision flag
is true, every destination filename under the flag is the sanitized
title followed by the enclosure url extension, and the filenames of the
two items are equal exactly when their sanitized titles are equal — so
they differ whenever the sanitized titles differ. -/
theorem claim_C6 (l1 l2 l3 : List Item) (it1 it2 : Item) (e1 e2 : Enclosure) (u1 u2 : String)
    (h1 : it1.enclosure = some e1) (h1u : e1.url = some u1)
    (h2 : it2.enclosure = some e2) (h2u : e2.url = some u2)
    (hb : basename (urlPath u1) = basename (urlPath u2))
    (hnb : basename (urlPath u1) ≠ "")
    (hall : ∀ it ∈ l1 ++ it1 :: l2 ++ it2 :: l3,
      it.enclosure.all (fun e => e.url.isSome) = true) :
    collisionFlag (l1 ++ it1 :: l2 ++ it2 :: l3) = .ok true
    ∧ (∀ s v, destBasename true s v = sanitize s ++ pathExt (urlPath v))
    ∧ (∀ s s', destBasename true s u1 = destBasename true s' u2 ↔ sanitize s = sanitize s') := by
  have hn1 : encName e1 = basename (urlPath u1) := by simp [encName, h1u]
  have hn2 : encName e2 = basename (urlPath u1) := by simp [encName, h2u, hb]
  have hpure : encPure (l1 ++ it1 :: l2 ++ it2 :: l3)
      = encPure l1 ++ basename (urlPath u1) :: encPure l2
          ++ basename (urlPath u1) :: encPure l3 := by
    rw [encPure_append, encPure_append,
      encPure_cons_some it1 _ e1 h1 (by rw [hn1]; exact hnb),
      encPure_cons_some it2 _ e2 h2 (by rw [hn2]; exact hnb), hn1, hn2]
  have hcount : 2 ≤ (encPure (l1 ++ it1 :: l2 ++ it2 :: l3)).count (basename (urlPath u1)) := by
    rw [hpure]
    simp only [List.count_append, List.count_cons_self]
    omega
  refine ⟨?_, ?_, ?_⟩
  · simp only [collisionFlag, encBasenames_eq_pure _ hall]
    rw [dup_count_flag _ _ hcount]
  · intro s v
    simp [destBasename]
  · intro s s'
    have hext : pathExt (urlPath u1) = pathExt (urlPath u2) := by
      unfold pathExt
      rw [hb]
    constructor
    · intro h
      simp only [destBasename, if_true, hext] at h
      exact str_append_right_cancel _ _ _ h
    · intro h
      simp only [destBasename, if_true, hext, h]

/-- Witness for C6: two colliding items with distinct titles. -/
theorem claim_C6_witness :
    collisionFlag
        [⟨some "A", none, none, some ⟨some "http://a.example/x.mp3", none, none⟩⟩,
          ⟨some "B", none, none, some ⟨some "http://b.example/x.mp3", none, none⟩⟩]
      = .ok true
    ∧ (destBasename true "A" "http://a.example/x.mp3"
        = destBasename true "B" "http://b.example/x.mp3"
        ↔ sanitize "A" = sanitize "B") := by
  have h := claim_C6 [] [] []
    ⟨some "A", none, none, some ⟨some "http://a.example/x.mp3", none, none⟩⟩
    ⟨some "B", none, none, some ⟨some "http://b.example/x.mp3", none, none⟩⟩
    ⟨some "http://a.example/x.mp3", none, none⟩ ⟨some "http://b.example/x.mp3", none, none⟩
    "http://a.example/x.mp3" "http://b.example/x.mp3" rfl rfl rfl rfl
    (by decide) (by decide) (by decide)
  exact ⟨h.1, h.2.2 "A" "B"⟩

end Podcatch
